import Mathlib

/-!
Verification of the DocINX resilient AI pipeline.

Shallow embedding of the core services of the repository:
`services/resilient_embedding_service.py`, `services/queue_processor.py`,
`services/multi_llm_service.py`, `services/vector_search_service.py`.

Modelling conventions:
- Python `float` timestamps (`time.time()`) are modelled as `Nat` seconds;
  the comparisons in the source are preserved literally.
- Embedding vectors (`List[float]`) are `List Float`; the numeric values of
  externally produced vectors are opaque payloads.
- Python truthiness of `Optional[List[float]]` / `Optional[str]` values
  (`if embedding:` in the source) is modelled explicitly: `None` and the
  empty container are falsy.
- In-memory dict caches keyed by `hashlib.md5(x).hexdigest()` are modelled
  as association lists keyed by `x` itself (the hash is injective for the
  purposes of the model; collisions are abstracted away).
- Database rows and external provider calls are inputs to the model: each
  call site receives the outcome the collaborator would have produced.
-/

namespace DocINX

/-- Embedding vectors: Python `List[float]`. -/
abbrev Vec := List Float

/-- Python truthiness of an `Optional[List[float]]` (`if embedding:`):
`None` and `[]` are falsy. -/
def optVecTruthy : Option Vec → Bool
  | none => false
  | some v => !v.isEmpty

/-- Association-list lookup (Python dict access on the hash-addressed
in-memory caches; most recent insertion wins, as for dict assignment). -/
def alookup {α β : Type} [DecidableEq α] (k : α) : List (α × β) → Option β
  | [] => none
  | (a, b) :: rest => if a = k then some b else alookup k rest

/-- Circuit-breaker states (`'CLOSED'`, `'OPEN'`, `'HALF_OPEN'` strings in the
source). -/
inductive CBState where
  | CLOSED
  | OPEN
  | HALF_OPEN
deriving DecidableEq, Repr

namespace REmb

/-- `resilient_embedding_service.CircuitBreaker.__init__`
(failure_threshold=5, recovery_timeout=300, success_threshold=3). -/
structure CircuitBreaker where
  failure_threshold : Nat := 5
  recovery_timeout : Nat := 300
  success_threshold : Nat := 3
  failure_count : Nat := 0
  success_count : Nat := 0
  last_failure_time : Option Nat := none
  state : CBState := .CLOSED
deriving DecidableEq, Repr

/-- `CircuitBreaker.can_execute` of `resilient_embedding_service.py`.
Returns the boolean together with the (possibly mutated) breaker: in the
OPEN state, once `time.time() - last_failure_time > recovery_timeout`, the
breaker moves to HALF_OPEN with `success_count = 0` and the call is allowed.
In HALF_OPEN the call is always allowed.  The `last_failure_time = None`
branch of the OPEN state is unreachable from the initial state (Python
would raise a `TypeError` on `None` subtraction); the model allows the call
there, which no theorem below relies on. -/
def CircuitBreaker.can_execute (cb : CircuitBreaker) (now : Nat) :
    Bool × CircuitBreaker :=
  match cb.state with
  | .CLOSED => (true, cb)
  | .OPEN =>
    match cb.last_failure_time with
    | some t =>
      if cb.recovery_timeout < now - t then
        (true, { cb with state := .HALF_OPEN, success_count := 0 })
      else
        (false, cb)
    | none => (true, cb)
  | .HALF_OPEN => (true, cb)

/-- `CircuitBreaker.on_success` of `resilient_embedding_service.py`: in
HALF_OPEN, increment `success_count` and close (resetting `failure_count`)
once `success_count >= success_threshold`; in CLOSED, decrement
`failure_count` toward 0. -/
def CircuitBreaker.on_success (cb : CircuitBreaker) : CircuitBreaker :=
  match cb.state with
  | .HALF_OPEN =>
    let sc := cb.success_count + 1
    if cb.success_threshold ≤ sc then
      { cb with success_count := sc, state := .CLOSED, failure_count := 0 }
    else
      { cb with success_count := sc }
  | .CLOSED => { cb with failure_count := cb.failure_count - 1 }
  | .OPEN => cb

/-- `CircuitBreaker.on_failure` of `resilient_embedding_service.py`:
increment `failure_count`, stamp `last_failure_time`; HALF_OPEN goes
straight back to OPEN, CLOSED opens once `failure_count >=
failure_threshold`. -/
def CircuitBreaker.on_failure (cb : CircuitBreaker) (now : Nat) :
    CircuitBreaker :=
  let cb := { cb with failure_count := cb.failure_count + 1,
                      last_failure_time := some now }
  match cb.state with
  | .HALF_OPEN => { cb with state := .OPEN }
  | _ =>
    if cb.failure_threshold ≤ cb.failure_count then
      { cb with state := .OPEN }
    else
      cb

end REmb

namespace QueueP

/-- `queue_processor.CircuitBreaker.__init__`
(failure_threshold=5, recovery_timeout=300): the queue-level breaker has no
success threshold. -/
structure CircuitBreaker where
  failure_threshold : Nat := 5
  recovery_timeout : Nat := 300
  failure_count : Nat := 0
  last_failure_time : Option Nat := none
  state : CBState := .CLOSED
deriving DecidableEq, Repr

/-- `queue_processor.CircuitBreaker.can_execute`; same OPEN-state timeout
test as the embedding-service breaker (None case likewise unreachable). -/
def CircuitBreaker.can_execute (cb : CircuitBreaker) (now : Nat) :
    Bool × CircuitBreaker :=
  match cb.state with
  | .CLOSED => (true, cb)
  | .OPEN =>
    match cb.last_failure_time with
    | some t =>
      if cb.recovery_timeout < now - t then
        (true, { cb with state := .HALF_OPEN })
      else
        (false, cb)
    | none => (true, cb)
  | .HALF_OPEN => (true, cb)

/-- `queue_processor.CircuitBreaker.on_success`: reset count and close. -/
def CircuitBreaker.on_success (cb : CircuitBreaker) : CircuitBreaker :=
  { cb with failure_count := 0, state := .CLOSED }

/-- `queue_processor.CircuitBreaker.on_failure`. -/
def CircuitBreaker.on_failure (cb : CircuitBreaker) (now : Nat) :
    CircuitBreaker :=
  let cb := { cb with failure_count := cb.failure_count + 1,
                      last_failure_time := some now }
  if cb.failure_threshold ≤ cb.failure_count then
    { cb with state := .OPEN }
  else
    cb

end QueueP

namespace REmb

/-- `str(e).lower()` containment test of
`resilient_embedding_service._try_openai_embedding` /
`multi_llm_service._try_openai_completion`: an error message is a
quota/rate-limit signal when it contains one of the conventional keywords. -/
def isQuotaError (msg : String) : Bool :=
  ["quota", "rate_limit", "429", "insufficient"].any
    (fun kw => decide (kw.toList <:+: msg.toList.map Char.toLower))

/-- Outcome of one call to a remote provider (`openai_service` /
`anthropic` collaborator): the call either returns a value or raises, with
`msg` the exception text. -/
inductive CallOutcome (α : Type) where
  | ok (v : α)
  | raise (msg : String)

/-- The tenacity retry loop wrapping `_try_openai_embedding` /
`_try_openai_completion` / `_try_anthropic_completion`
(`stop_after_attempt(k)`), with `fuel` attempts remaining and `used`
attempts already made.  `noKey` models a falsy `settings.openai_api_key`,
whose branch returns `None` before touching the provider.  A returned value
stops the loop (including `None` for a missing key or a recognized quota
error); a non-quota exception is retried until the attempt cap, after which
it propagates (`Except.error`; tenacity wraps it, and every caller catches
all exceptions alike).  Also returns the number of attempts made against
the provider. -/
def tenacityQuotaGo {α : Type} (noKey : Bool) (attempt : Nat → CallOutcome α) :
    Nat → Nat → Except String (Option α) × Nat
  | 0, used => (.error "RetryError", used)
  | fuel + 1, used =>
    if noKey then
      (.ok none, used)
    else
      match attempt (used + 1) with
      | .ok v => (.ok (some v), used + 1)
      | .raise msg =>
        if isQuotaError msg then (.ok none, used + 1)
        else if fuel = 0 then (.error msg, used + 1)
        else tenacityQuotaGo noKey attempt fuel (used + 1)

/-- Environment of `_try_openai_embedding`: whether
`settings.openai_api_key` is truthy, and the outcome the provider produces
on the n-th attempt of this call (1-based). -/
structure OpenAIEnv where
  hasApiKey : Bool
  attempt : Nat → CallOutcome Vec

/-- `ResilientEmbeddingService._try_openai_embedding` with its
`stop_after_attempt(3)` retry decorator. -/
def tryOpenaiEmbedding (env : OpenAIEnv) : Except String (Option Vec) × Nat :=
  tenacityQuotaGo (!env.hasApiKey) env.attempt 3 0

/-- Outcome of `LocalEmbeddingService.generate_embedding` as observed by the
chain (the TF-IDF provider, an external sklearn collaborator): it returns an
optional vector, or the awaited call raises. -/
inductive LocalOutcome where
  | ret (r : Option Vec)
  | raise

/-- `LocalEmbeddingService._generate_hash_embedding`: twelve seeded draws of
128 normal samples each are concatenated and truncated to 1536 entries.
`sample text i` abstracts the numpy draw for seed `md5(f"{text}_{i}")`;
its contract is to return 128 floats. -/
def generate_hash_embedding (sample : String → Nat → Vec) (text : String) : Vec :=
  (((List.range 12).map (fun i => sample text i)).flatten).take 1536

/-- Collaborator outcomes for one chain invocation. -/
structure ChainEnv where
  openai : OpenAIEnv
  localResult : LocalOutcome

/-- Mutable state of a `ResilientEmbeddingService` instance: its circuit
breaker and its `embedding_cache` (a dict keyed by `md5(text)`, modelled as
an association list keyed by the text). -/
structure ChainState where
  breaker : CircuitBreaker := {}
  cache : List (String × Vec) := []

/-- Result of `generate_embedding_with_fallback`: the `(embedding,
provider)` pair of the source, the updated service state, and the number of
OpenAI attempts made. -/
structure ChainOutput where
  embedding : Option Vec
  provider : String
  state : ChainState
  openaiCalls : Nat

/-- `ResilientEmbeddingService.generate_embedding_with_fallback`: cache
lookup first; then the OpenAI provider gated by the circuit breaker
(success/failure recorded, Python truthiness on the returned vector); then
the local TF-IDF provider; finally the deterministic hash provider, which
is a pure computation and cannot raise (the dead `except` arm returning
`(None, "failed")` is therefore not reachable in the model). -/
def generate_embedding_with_fallback (sample : String → Nat → Vec)
    (env : ChainEnv) (st : ChainState) (now : Nat) (text : String) :
    ChainOutput :=
  match alookup text st.cache with
  | some v => ⟨some v, "cache", st, 0⟩
  | none =>
    let p := st.breaker.can_execute now
    let afterPrimary : CircuitBreaker × Nat × Option Vec :=
      if p.1 then
        match tryOpenaiEmbedding env.openai with
        | (.ok (some v), n) =>
          if !v.isEmpty then (p.2.on_success, n, some v)
          else (p.2.on_failure now, n, none)
        | (.ok none, n) => (p.2.on_failure now, n, none)
        | (.error _, n) => (p.2.on_failure now, n, none)
      else (p.2, 0, none)
    match afterPrimary with
    | (cb, n, some v) =>
      ⟨some v, "openai", ⟨cb, (text, v) :: st.cache⟩, n⟩
    | (cb, n, none) =>
      let hv := generate_hash_embedding sample text
      match env.localResult with
      | .ret (some v) =>
        if !v.isEmpty then
          ⟨some v, "local_tfidf", ⟨cb, (text, v) :: st.cache⟩, n⟩
        else
          ⟨some hv, "hash_fallback", ⟨cb, (text, hv) :: st.cache⟩, n⟩
      | _ =>
        ⟨some hv, "hash_fallback", ⟨cb, (text, hv) :: st.cache⟩, n⟩

/-- The OpenAI stage of the chain yields a truthy vector. -/
def openaiBranchSucceeds (env : OpenAIEnv) : Bool :=
  match tryOpenaiEmbedding env with
  | (.ok (some v), _) => !v.isEmpty
  | _ => false

/-- The local TF-IDF stage of the chain yields a truthy vector. -/
def localBranchSucceeds : LocalOutcome → Bool
  | .ret (some v) => !v.isEmpty
  | _ => false

end REmb

namespace QueueP

/-- Python `text.split(". ")` restricted to character lists:
non-overlapping left-to-right splitting at the two-character separator,
empty pieces preserved.  `acc` holds the reversed characters of the piece
being read. -/
def splitDotSpaceGo : List Char → List Char → List (List Char)
  | acc, [] => [acc.reverse]
  | acc, '.' :: ' ' :: rest => acc.reverse :: splitDotSpaceGo [] rest
  | acc, c :: rest => splitDotSpaceGo (c :: acc) rest

/-- `text.split(". ")` of `_chunk_text_robust`. -/
def splitDotSpace (text : List Char) : List (List Char) :=
  splitDotSpaceGo [] text

/-- Python `str.strip()`: drop whitespace from both ends. -/
def pyStrip (s : List Char) : List Char :=
  ((s.dropWhile Char.isWhitespace).reverse.dropWhile Char.isWhitespace).reverse

/-- Python slice `s[-n:]` as used for the overlap text: for `n = 0` this is
the WHOLE string (`s[-0:]` is `s[0:]`), otherwise the last `n` characters
(the caller guards `len(s) > n`, so larger negative indices do not occur). -/
def pyTail (s : List Char) (n : Nat) : List Char :=
  if n = 0 then s else s.drop (s.length - n)

/-- A chunk dict `{"content", "char_start", "char_end"}` produced by
`_chunk_text_robust`. -/
structure PyChunk where
  content : List Char
  char_start : Nat
  char_end : Nat
deriving DecidableEq, Repr

/-- The sentence-accumulation loop of `_chunk_text_robust`: `cur` is
`current_chunk`, `start` is `current_start`; each flushed chunk records the
span `[start, start + len(cur))` and the stripped content, and the next
chunk restarts from the overlap text.  The final non-empty `cur` is flushed
after the loop. -/
def chunkGo (chunk_size overlap : Nat) :
    List (List Char) → List Char → Nat → List PyChunk
  | [], cur, start =>
    if cur.isEmpty then [] else [⟨pyStrip cur, start, start + cur.length⟩]
  | s :: rest, cur, start =>
    let swp := s ++ [ '.', ' ' ]
    if (cur ++ swp).length ≤ chunk_size then
      chunkGo chunk_size overlap rest (cur ++ swp) start
    else if !cur.isEmpty then
      let ov := if overlap < cur.length then pyTail cur overlap else cur
      ⟨pyStrip cur, start, start + cur.length⟩ ::
        chunkGo chunk_size overlap rest (ov ++ swp)
          (start + cur.length - ov.length)
    else
      chunkGo chunk_size overlap rest swp start

/-- `queue_processor._chunk_text_robust` (settings defaults:
`chunk_size = 1000`, `chunk_overlap = 200`). -/
def chunk_text_robust (chunk_size overlap : Nat) (text : List Char) :
    List PyChunk :=
  chunkGo chunk_size overlap (splitDotSpace text) [] 0

/-- A `Chunk` row written by `db.add` in the processing task
(`db/models.Chunk`). -/
structure ChunkRow where
  document_id : String
  chunk_index : Nat
  content : List Char
  char_start : Nat
  char_end : Nat
  embedding : Option Vec

/-- Outcome of the per-chunk body of `_process_document_async` as observed
by the loop: the optional vector returned by
`generate_embedding_with_fallback`, or an exception raised anywhere in the
body (the `except` arm). -/
inductive ChunkAttempt where
  | result (r : Option Vec)
  | raised

/-- Result of the chunk-processing loop of `_process_document_async`. -/
structure ProcessOutcome where
  rows : List ChunkRow
  chunks_created : Nat
  chunks_failed : Nat
  breaker : CircuitBreaker

/-- The `for i, chunk in enumerate(chunks)` loop of
`_process_document_async`: the module-level `embedding_circuit_breaker` is
consulted first (a denied chunk is stored without embedding and counted
failed, with no attempt); an attempt returning a truthy vector stores the
row with the vector, counts it created and records breaker success; a
falsy result or an exception stores the row without embedding, counts it
failed and records breaker failure. -/
def processChunksGo (docId : String) (now : Nat) :
    List (PyChunk × ChunkAttempt) → Nat → CircuitBreaker → ProcessOutcome
  | [], _, cb => ⟨[], 0, 0, cb⟩
  | (c, a) :: rest, i, cb =>
    let p := cb.can_execute now
    if !p.1 then
      let o := processChunksGo docId now rest (i + 1) p.2
      ⟨⟨docId, i, c.content, c.char_start, c.char_end, none⟩ :: o.rows,
        o.chunks_created, o.chunks_failed + 1, o.breaker⟩
    else
      match a with
      | .result (some v) =>
        if !v.isEmpty then
          let o := processChunksGo docId now rest (i + 1) p.2.on_success
          ⟨⟨docId, i, c.content, c.char_start, c.char_end, some v⟩ :: o.rows,
            o.chunks_created + 1, o.chunks_failed, o.breaker⟩
        else
          let o := processChunksGo docId now rest (i + 1) (p.2.on_failure now)
          ⟨⟨docId, i, c.content, c.char_start, c.char_end, none⟩ :: o.rows,
            o.chunks_created, o.chunks_failed + 1, o.breaker⟩
      | .result none =>
        let o := processChunksGo docId now rest (i + 1) (p.2.on_failure now)
        ⟨⟨docId, i, c.content, c.char_start, c.char_end, none⟩ :: o.rows,
          o.chunks_created, o.chunks_failed + 1, o.breaker⟩
      | .raised =>
        let o := processChunksGo docId now rest (i + 1) (p.2.on_failure now)
        ⟨⟨docId, i, c.content, c.char_start, c.char_end, none⟩ :: o.rows,
          o.chunks_created, o.chunks_failed + 1, o.breaker⟩

/-- The chunk loop started at index 0 with the given breaker. -/
def processChunks (docId : String) (now : Nat)
    (items : List (PyChunk × ChunkAttempt)) (cb : CircuitBreaker) :
    ProcessOutcome :=
  processChunksGo docId now items 0 cb

/-- A Celery enqueue of `retry_failed_embeddings`, as performed by
`task.delay(*args, **kwargs)`.  Celery `.delay` is shorthand for
`apply_async(args, kwargs)` with NO execution options: every keyword
argument is passed to the task function itself.  Hence
`retry_failed_embeddings.delay(document_id, countdown=300)` enqueues the
task for immediate execution with the FUNCTION PARAMETER `countdown` set to
300 (that parameter is only read by the failure handler to derive the next
backoff); an actual scheduling delay would require
`apply_async(..., countdown=300)`.  `etaDelay` records a scheduling delay
in seconds, `none` meaning immediate. -/
structure RetryEnqueue where
  countdownArg : Nat
  etaDelay : Option Nat
deriving DecidableEq, Repr

/-- The status decision at the end of `_process_document_async` (after
`db.commit()`): `ready` / `partial` / `indexing_pending_quota` by the
created/failed counts, with the retry enqueues performed by each branch.
The `countdown` parameter of `retry_failed_embeddings` defaults to 60 when
not passed. -/
def finalize_document (chunks_created chunks_failed : Nat) :
    String × Option RetryEnqueue :=
  if 0 < chunks_created ∧ chunks_failed = 0 then
    ("ready", none)
  else if 0 < chunks_created ∧ 0 < chunks_failed then
    ("partial", some ⟨60, none⟩)
  else
    ("indexing_pending_quota", some ⟨300, none⟩)

/-- Persisted document state as touched by the retry task. -/
structure DocState where
  status : String
  error_message : Option String := none
  chunks : List ChunkRow

/-- Result of `_retry_embeddings_async`. -/
structure RetryOutcome where
  doc : DocState
  retry_success : Nat
  retry_failed : Nat
  breaker : CircuitBreaker

/-- The retry loop of `_retry_embeddings_async` over the full chunk list:
rows that already carry an embedding are untouched; for rows with
`embedding = null`, the loop consults the shared breaker (a denial BREAKS
out: every later row is left untouched and no further breaker call is
made), then the `k`-th chain attempt either fills the embedding (success
count, breaker success) or leaves it null (failed count, breaker failure;
exceptions likewise).  Returns the updated rows, the success/failed counts
and the final breaker. -/
def retryChunksGo (now : Nat) (atts : Nat → ChunkAttempt) :
    List ChunkRow → Nat → CircuitBreaker → Bool →
    List ChunkRow × Nat × Nat × CircuitBreaker
  | [], _, cb, _ => ([], 0, 0, cb)
  | row :: rest, k, cb, stopped =>
    match row.embedding with
    | some _ =>
      let o := retryChunksGo now atts rest k cb stopped
      (row :: o.1, o.2)
    | none =>
      if stopped then
        let o := retryChunksGo now atts rest k cb true
        (row :: o.1, o.2)
      else
        let p := cb.can_execute now
        if !p.1 then
          let o := retryChunksGo now atts rest k p.2 true
          (row :: o.1, o.2)
        else
          match atts k with
          | .result (some v) =>
            if !v.isEmpty then
              let o := retryChunksGo now atts rest (k + 1) p.2.on_success false
              ({ row with embedding := some v } :: o.1, o.2.1 + 1, o.2.2)
            else
              let o := retryChunksGo now atts rest (k + 1) (p.2.on_failure now) false
              (row :: o.1, o.2.1, o.2.2.1 + 1, o.2.2.2)
          | .result none =>
            let o := retryChunksGo now atts rest (k + 1) (p.2.on_failure now) false
            (row :: o.1, o.2.1, o.2.2.1 + 1, o.2.2.2)
          | .raised =>
            let o := retryChunksGo now atts rest (k + 1) (p.2.on_failure now) false
            (row :: o.1, o.2.1, o.2.2.1 + 1, o.2.2.2)

/-- `queue_processor._retry_embeddings_async`: select the chunks with
`embedding = null`; when there are none, return at once touching nothing
("No chunks need retry").  Otherwise run the retry loop, commit, and update
the status: `ready` when some succeeded and none failed, `partial` when
some succeeded and some failed, and NO status update otherwise. -/
def retry_embeddings_async (now : Nat) (atts : Nat → ChunkAttempt)
    (cb : CircuitBreaker) (doc : DocState) : RetryOutcome :=
  let nulls := doc.chunks.filter (fun r => r.embedding.isNone)
  if nulls.isEmpty then
    ⟨doc, 0, 0, cb⟩
  else
    let o := retryChunksGo now atts doc.chunks 0 cb false
    let s := o.2.1
    let f := o.2.2.1
    if 0 < s ∧ f = 0 then
      ⟨⟨"ready", some "All chunks processed successfully", o.1⟩, s, f, o.2.2.2⟩
    else if 0 < s then
      ⟨⟨"partial",
        some ("Retry completed: " ++ toString s ++ " successful, " ++
          toString f ++ " still pending"), o.1⟩, s, f, o.2.2.2⟩
    else
      ⟨⟨doc.status, doc.error_message, o.1⟩, s, f, o.2.2.2⟩

/-- Observable outcome of one execution of the Celery task
`retry_failed_embeddings`. -/
inductive RetryTaskResult where
  | completed (r : RetryOutcome)
  | rescheduled (countdown : Nat)
  | markedFailed

/-- `queue_processor.retry_failed_embeddings`: the task around
`_retry_embeddings_async`.  When the body returns, the task returns its
result and performs NO rescheduling.  When the body raises, the countdown
parameter is doubled; if the doubled value is within the 3600-second cap
and fewer than 3 task retries have happened, the task re-enqueues itself
with `min(2 * countdown, 3600)`; otherwise the document is marked
`embedding_failed` and the exception propagates. -/
def retry_failed_embeddings (countdownParam : Nat) (priorRetries : Nat)
    (body : Except String RetryOutcome) : RetryTaskResult :=
  match body with
  | .ok r => .completed r
  | .error _ =>
    let rc := 2 * countdownParam
    if rc ≤ 3600 ∧ priorRetries < 3 then .rescheduled (min rc 3600)
    else .markedFailed

end QueueP

/-- Boolean substring containment (Python `kw in s`), on character lists. -/
def containsSub (s kw : List Char) : Bool :=
  decide (kw <:+: s)

namespace MLLM

/-- A chat message dict `{"role": ..., "content": ...}`. -/
structure Message where
  role : String
  content : String
deriving DecidableEq, Repr

/-- `MultiLLMService._create_cache_key` hashes
`str(messages) + str(max_tokens) + str(temperature)`; the model keys the
cache by the triple itself (the `retrieved_docs` argument does not reach
the key).  The float temperature is modelled as a rational. -/
abbrev LLMCacheKey := List Message × Nat × Rat

/-- `MultiLLMService._create_cache_key`. -/
def create_cache_key (messages : List Message) (max_tokens : Nat)
    (temperature : Rat) : LLMCacheKey :=
  (messages, max_tokens, temperature)

/-- Per-provider health record of `LLMCircuitBreaker._get_provider_state`. -/
structure ProviderHealth where
  failure_count : Nat := 0
  state : CBState := .CLOSED
  last_failure_time : Option Nat := none
deriving DecidableEq, Repr

/-- `multi_llm_service.LLMCircuitBreaker`
(failure_threshold=3, recovery_timeout=180): one health record per provider
name, created on first use. -/
structure LLMCircuitBreaker where
  failure_threshold : Nat := 3
  recovery_timeout : Nat := 180
  providers : List (String × ProviderHealth) := []
deriving DecidableEq, Repr

/-- `LLMCircuitBreaker._get_provider_state`: existing record or a fresh
CLOSED one. -/
def LLMCircuitBreaker.getState (cb : LLMCircuitBreaker) (p : String) :
    ProviderHealth :=
  (alookup p cb.providers).getD {}

/-- Write back a provider health record (dict mutation in the source). -/
def LLMCircuitBreaker.setState (cb : LLMCircuitBreaker) (p : String)
    (s : ProviderHealth) : LLMCircuitBreaker :=
  { cb with providers := (p, s) :: cb.providers }

/-- `LLMCircuitBreaker.can_execute(provider)`: CLOSED and HALF_OPEN permit;
OPEN permits (moving to HALF_OPEN) once
`time.time() - last_failure_time > recovery_timeout` (the `None` timestamp
case is unreachable, as for the embedding breaker). -/
def LLMCircuitBreaker.can_execute (cb : LLMCircuitBreaker) (p : String)
    (now : Nat) : Bool × LLMCircuitBreaker :=
  let s := cb.getState p
  match s.state with
  | .CLOSED => (true, cb.setState p s)
  | .OPEN =>
    match s.last_failure_time with
    | some t =>
      if cb.recovery_timeout < now - t then
        (true, cb.setState p { s with state := .HALF_OPEN })
      else
        (false, cb.setState p s)
    | none => (true, cb.setState p s)
  | .HALF_OPEN => (true, cb.setState p s)

/-- `LLMCircuitBreaker.on_success(provider)`: reset and close. -/
def LLMCircuitBreaker.on_success (cb : LLMCircuitBreaker) (p : String) :
    LLMCircuitBreaker :=
  let s := cb.getState p
  cb.setState p { s with failure_count := 0, state := .CLOSED }

/-- `LLMCircuitBreaker.on_failure(provider)`. -/
def LLMCircuitBreaker.on_failure (cb : LLMCircuitBreaker) (p : String)
    (now : Nat) : LLMCircuitBreaker :=
  let s := cb.getState p
  let s := { s with failure_count := s.failure_count + 1,
                    last_failure_time := some now }
  if cb.failure_threshold ≤ s.failure_count then
    cb.setState p { s with state := .OPEN }
  else
    cb.setState p s

/-- Collaborator outcomes for one completion-chain invocation:
`settings.openai_api_key` truthiness, the per-attempt outcomes of the
OpenAI and Anthropic completion calls, and `anthropic_service.available`. -/
structure CompletionEnv where
  openaiHasKey : Bool
  openaiAttempt : Nat → REmb.CallOutcome String
  anthropicAvailable : Bool
  anthropicAttempt : Nat → REmb.CallOutcome String

/-- Mutable state of a `MultiLLMService` instance: the per-provider circuit
breaker and the `response_cache` dict. -/
structure MLLMState where
  breaker : LLMCircuitBreaker := {}
  response_cache : List (LLMCacheKey × String) := []

/-- `(response, provider_used)` plus the updated service state. -/
structure CompletionOutput where
  response : String
  provider : String
  state : MLLMState

/-- The message scanned by `_generate_deterministic_response`: the content
of the last `user` message, `""` when there is none. -/
def lastUserMessage (messages : List Message) : String :=
  match messages.reverse.find? (fun m => m.role == "user") with
  | some m => m.content
  | none => ""

/-- `MultiLLMService._generate_deterministic_response`: templated text from
the last user message; with retrieved documents, the top three are excerpted
(truncated at 500 characters) into a numbered list. -/
def generate_deterministic_response (messages : List Message)
    (retrieved_docs : Option (List String)) : String :=
  let user_message := lastUserMessage messages
  if user_message.isEmpty then
    "I didn\x27t receive a clear question. Could you please rephrase your request?"
  else
    match retrieved_docs with
    | some docs =>
      if !docs.isEmpty then
        let top_docs := docs.take 3
        let docParts := (top_docs.enumFrom 1).flatMap
          (fun p =>
            let doc_content :=
              if 500 < p.2.length then p.2.take 500 ++ "..." else p.2
            [toString p.1 ++ ". " ++ doc_content, ""])
        String.intercalate "\n"
          (["Based on your question about \x27" ++ user_message ++
              "\x27, I found the following relevant information:", "",
            "**Relevant Content:**"] ++ docParts ++
           ["**Summary:**",
            "The above information relates to your question about " ++
              user_message ++
              ". Please review the relevant content sections for detailed information.",
            "",
            "*(This response was generated using document retrieval due to AI service limitations. For more detailed analysis, please try again later when full AI services are available.)*"])
      else
        "I understand you\x27re asking about: \x27" ++ user_message ++
          "\x27\n\nI\x27m currently operating in limited mode due to AI service constraints. To get the most helpful response:\n\n1. Try uploading relevant documents that might contain information about your question\n2. Be as specific as possible in your queries\n3. Try again in a few moments when full AI services may be restored\n\nI apologize for the inconvenience and appreciate your patience."
    | none =>
      "I understand you\x27re asking about: \x27" ++ user_message ++
        "\x27\n\nI\x27m currently operating in limited mode due to AI service constraints. To get the most helpful response:\n\n1. Try uploading relevant documents that might contain information about your question\n2. Be as specific as possible in your queries\n3. Try again in a few moments when full AI services may be restored\n\nI apologize for the inconvenience and appreciate your patience."

/-- `MultiLLMService.generate_completion_with_fallback`: cache lookup on
the key built from `(messages, max_tokens, temperature)` only; then OpenAI
(2 tenacity attempts, quota errors returning `None`), then Anthropic when
available, each guarded by its named breaker with Python truthiness on the
returned string; finally `_generate_deterministic_response`, which is a
pure computation — its dead `except` arm (`"error_fallback"`) is not
reachable in the model.  Every non-cache response is written to the cache
under the same key. -/
def generate_completion_with_fallback (env : CompletionEnv) (st : MLLMState)
    (now : Nat) (messages : List Message) (max_tokens : Nat)
    (temperature : Rat) (retrieved_docs : Option (List String)) :
    CompletionOutput :=
  let key := create_cache_key messages max_tokens temperature
  match alookup key st.response_cache with
  | some r => ⟨r, "cache", st⟩
  | none =>
    let p := st.breaker.can_execute "openai" now
    let afterOpenai : LLMCircuitBreaker × Option String :=
      if p.1 then
        match REmb.tenacityQuotaGo (!env.openaiHasKey) env.openaiAttempt 2 0 with
        | (.ok (some s), _) =>
          if !s.isEmpty then (p.2.on_success "openai", some s)
          else (p.2.on_failure "openai" now, none)
        | (.ok none, _) => (p.2.on_failure "openai" now, none)
        | (.error _, _) => (p.2.on_failure "openai" now, none)
      else (p.2, none)
    match afterOpenai with
    | (cb, some s) =>
      ⟨s, "openai", ⟨cb, (key, s) :: st.response_cache⟩⟩
    | (cb, none) =>
      let afterAnthropic : LLMCircuitBreaker × Option String :=
        if env.anthropicAvailable then
          let q := cb.can_execute "anthropic" now
          if q.1 then
            match REmb.tenacityQuotaGo false env.anthropicAttempt 2 0 with
            | (.ok (some s), _) =>
              if !s.isEmpty then (q.2.on_success "anthropic", some s)
              else (q.2.on_failure "anthropic" now, none)
            | (.ok none, _) => (q.2.on_failure "anthropic" now, none)
            | (.error _, _) => (q.2.on_failure "anthropic" now, none)
          else (q.2, none)
        else (cb, none)
      match afterAnthropic with
      | (cb2, some s) =>
        ⟨s, "anthropic", ⟨cb2, (key, s) :: st.response_cache⟩⟩
      | (cb2, none) =>
        let r := generate_deterministic_response messages retrieved_docs
        ⟨r, "deterministic", ⟨cb2, (key, r) :: st.response_cache⟩⟩

end MLLM

namespace VSearch

/-- A chunk row joined with its document, as produced by the search SQL of
`vector_search_service.py`; `similarity` is the database-computed ordering
value (cosine similarity or `ts_rank`), modelled as a rational. -/
structure Row where
  id : Nat
  content : String
  char_start : Nat
  char_end : Nat
  chunk_index : Nat
  document_id : String
  title : String
  filename : String
  similarity : Rat
deriving DecidableEq, Repr

/-- A result dict built by one of the three strategies. -/
structure SearchResult where
  chunk_id : Nat
  content : String
  char_start : Nat
  char_end : Nat
  chunk_index : Nat
  document_id : String
  document_title : String
  document_filename : String
  similarity : Rat
  search_method : String
  embedding_provider : String
deriving DecidableEq, Repr

/-- Result building of `_vector_search` (per-row dict with
`search_method = "vector"` and the provider of the query embedding). -/
def vectorResult (embedding_provider : String) (r : Row) : SearchResult :=
  ⟨r.id, r.content, r.char_start, r.char_end, r.chunk_index, r.document_id,
   r.title, r.filename, r.similarity, "vector", embedding_provider⟩

/-- Result building of `_fulltext_search` (per-row dict with
`search_method = "fulltext"`, `embedding_provider = "postgresql"`,
similarity from `ts_rank`). -/
def fulltextResult (r : Row) : SearchResult :=
  ⟨r.id, r.content, r.char_start, r.char_end, r.chunk_index, r.document_id,
   r.title, r.filename, r.similarity, "fulltext", "postgresql"⟩

/-- Python `query.lower().split()`: whitespace splitting with empty pieces
discarded, on character lists. -/
def pyLowerSplit (q : String) : List (List Char) :=
  ((q.toList.map Char.toLower).splitOnP Char.isWhitespace).filter
    (fun s => !s.isEmpty)

/-- Keyword scoring of `_keyword_search`: fraction of the query keywords
contained in the lower-cased content (0 when there are no keywords). -/
def keywordScore (keywords : List (List Char)) (content : String) : Rat :=
  if keywords.isEmpty then 0
  else
    ((keywords.filter
        (fun kw => containsSub (content.toList.map Char.toLower) kw)).length
      : Rat) / (keywords.length : Rat)

/-- Result building of `_keyword_search` (per-row dict with
`search_method = "keyword"`, `embedding_provider = "none"`). -/
def keywordResult (keywords : List (List Char)) (r : Row) : SearchResult :=
  ⟨r.id, r.content, r.char_start, r.char_end, r.chunk_index, r.document_id,
   r.title, r.filename, keywordScore keywords r.content, "keyword", "none"⟩

/-- Stable descending-by-score insertion of one result (the source sorts
with Python `list.sort(key=..., reverse=True)`, which is stable). -/
def insertBySimDesc (x : SearchResult) : List SearchResult → List SearchResult
  | [] => [x]
  | y :: ys =>
    if x.similarity < y.similarity then y :: insertBySimDesc x ys
    else x :: y :: ys

/-- Stable sort by score descending. -/
def sortBySimDesc (l : List SearchResult) : List SearchResult :=
  l.foldr insertBySimDesc []

/-- Outcome of one strategy call as observed by `search_documents`:
the call raised (caught by the enclosing `try`), or returned `v`. -/
inductive StratOutcome (α : Type) where
  | raised
  | value (v : α)

/-- Collaborator outcomes for one `search_documents` invocation:
`_vector_search` and `_fulltext_search` return `None` on their internal
errors (embedding unavailable / database error) or the rows found;
`_keyword_search` returns its rows or `[]` on internal error;
each may also raise outside its inner `try`. -/
structure SearchEnv where
  vectorProvider : String
  vectorRows : StratOutcome (Option (List Row))
  fulltextRows : StratOutcome (Option (List Row))
  keywordRows : StratOutcome (List Row)

/-- `search_cache` key `f"{query}_{user_id}_{limit}_{similarity_threshold}"`,
modelled as the quadruple itself. -/
abbrev SearchKey := String × String × Nat × Rat

abbrev SearchCache := List (SearchKey × List SearchResult)

/-- `(results, search_method_used)` plus the updated cache. -/
structure SearchOutput where
  results : List SearchResult
  method : String
  cache : SearchCache

/-- `VectorSearchService.search_documents`: cache first; then vector,
full-text and keyword strategies in order, each falling through on an
exception, a `None`, or an empty result list (`if results:`); keyword
results are sorted by score descending (`list.sort` with
`reverse=True`, modelled by a merge sort on the score order) and are
returned — and cached — even when empty; a raise in the keyword stage is
caught by the outer handler, which returns `([], "search_failed")`. -/
def search_documents (env : SearchEnv) (cache : SearchCache)
    (query user_id : String) (lim : Nat) (threshold : Rat) : SearchOutput :=
  let key : SearchKey := (query, user_id, lim, threshold)
  match alookup key cache with
  | some r => ⟨r, "cache", cache⟩
  | none =>
    let vectorStage : Option (List SearchResult) :=
      match env.vectorRows with
      | .raised => none
      | .value none => none
      | .value (some rows) =>
        let results := rows.map (vectorResult env.vectorProvider)
        if !results.isEmpty then some results else none
    match vectorStage with
    | some results => ⟨results, "vector_search", (key, results) :: cache⟩
    | none =>
      let fulltextStage : Option (List SearchResult) :=
        match env.fulltextRows with
        | .raised => none
        | .value none => none
        | .value (some rows) =>
          let results := rows.map fulltextResult
          if !results.isEmpty then some results else none
      match fulltextStage with
      | some results => ⟨results, "fulltext_search", (key, results) :: cache⟩
      | none =>
        match env.keywordRows with
        | .raised => ⟨[], "search_failed", cache⟩
        | .value rows =>
          let keywords := pyLowerSplit query
          let results := sortBySimDesc (rows.map (keywordResult keywords))
          ⟨results, "keyword_search", (key, results) :: cache⟩

end VSearch

/-! Concrete instances and predicates used by the theorems below. -/

/-- A concrete stand-in for the numpy sampler: every draw is 128 copies of
one float. -/
def constSample : String → Nat → Vec := fun _ _ => List.replicate 128 (0.37 : Float)

/-- Concrete collaborator outcomes where the OpenAI call hits a quota error
and the local TF-IDF provider returns `None`. -/
def c1Env : REmb.ChainEnv :=
  ⟨⟨true, fun _ => .raise "quota exceeded for this key"⟩, .ret none⟩

/-- The default embedding-service breaker after five consecutive failures
at the given times (as driven by five `on_failure()` calls). -/
def breakerAfterFailures (t1 t2 t3 t4 t5 : Nat) : REmb.CircuitBreaker :=
  (((((({} : REmb.CircuitBreaker).on_failure t1).on_failure t2).on_failure
    t3).on_failure t4).on_failure t5)

/-- Per-chunk relation between an input chunk (with its attempt outcome)
and the row the task stored for it. -/
def ChunkRowMatches (docId : String)
    (it : QueueP.PyChunk × QueueP.ChunkAttempt) (r : QueueP.ChunkRow) : Prop :=
  r.document_id = docId ∧
  r.content = it.1.content ∧
  r.char_start = it.1.char_start ∧
  r.char_end = it.1.char_end ∧
  (r.embedding = none ∨
    ∃ v, it.2 = QueueP.ChunkAttempt.result (some v) ∧ r.embedding = some v)

/-- The invariants of the chunk-processing loop: counts add up to the
number of chunks, indices are consecutive from the start index, every
chunk is stored exactly once with its content and span, and the counts
agree with the rows that do / do not carry an embedding. -/
def ProcessSpec (docId : String)
    (items : List (QueueP.PyChunk × QueueP.ChunkAttempt)) (i : Nat)
    (o : QueueP.ProcessOutcome) : Prop :=
  o.chunks_created + o.chunks_failed = items.length ∧
  o.rows.map (fun r => r.chunk_index) = List.range' i items.length ∧
  List.Forall₂ (ChunkRowMatches docId) items o.rows ∧
  o.chunks_created =
    (o.rows.filter (fun r => r.embedding.isSome)).length ∧
  o.chunks_failed =
    (o.rows.filter (fun r => r.embedding.isNone)).length

/-- A concrete two-chunk input with successful attempts of one float each. -/
def c3Items : List (QueueP.PyChunk × QueueP.ChunkAttempt) :=
  [(⟨[ 'h', 'i' ], 0, 2⟩, .result (some [(0.5 : Float)])),
   (⟨[ 'y', 'o' ], 2, 4⟩, .result (some [(0.25 : Float)]))]

/-- Per-row relation for the retry loop: a row is left unchanged, or it had
`embedding = null` and was filled with a vector produced by one of the
chain attempts.  In particular rows that already carry an embedding are
never modified. -/
def RetryRowMatches (atts : Nat → QueueP.ChunkAttempt)
    (old new : QueueP.ChunkRow) : Prop :=
  new = old ∨
    (old.embedding = none ∧ ∃ v k,
      atts k = QueueP.ChunkAttempt.result (some v) ∧
      new = { old with embedding := some v })

/-- A document whose single chunk already has an embedding (nothing is
eligible for retry). -/
def c9Doc : QueueP.DocState :=
  ⟨"ready", none, [⟨"doc-2", 0, [ 'h', 'i' ], 0, 2, some [(0.5 : Float)]⟩]⟩

/-- A `partial` document with one embedded and one null chunk. -/
def c5Doc : QueueP.DocState :=
  ⟨"partial", none,
   [⟨"doc-3", 0, [ 'h', 'i' ], 0, 2, some [(0.5 : Float)]⟩,
    ⟨"doc-3", 1, [ 'y', 'o' ], 2, 4, none⟩]⟩

/-- Retry attempts that always produce a one-float vector. -/
def c5AttsOk : Nat → QueueP.ChunkAttempt :=
  fun _ => .result (some [(0.5 : Float)])

/-- The vector strategy produced nothing usable: it raised, returned
`None`, or returned zero rows. -/
def vectorYieldsNothing (env : VSearch.SearchEnv) : Prop :=
  env.vectorRows = .raised ∨ env.vectorRows = .value none ∨
    env.vectorRows = .value (some [])

/-- The full-text strategy produced nothing usable. -/
def fulltextYieldsNothing (env : VSearch.SearchEnv) : Prop :=
  env.fulltextRows = .raised ∨ env.fulltextRows = .value none ∨
    env.fulltextRows = .value (some [])

/-- The keyword strategy produced nothing usable: it raised or returned
zero rows. -/
def keywordYieldsNothing (env : VSearch.SearchEnv) : Prop :=
  env.keywordRows = .raised ∨ env.keywordRows = .value []

/-- A concrete chunk/document row for the search witnesses. -/
def c6Row : VSearch.Row :=
  ⟨1, "alpha beta", 0, 10, 0, "doc-9", "Doc", "doc.txt", (1 : Rat) / 2⟩

/-- Concrete search outcomes: vector raises, full-text finds one row,
keyword would find nothing. -/
def c6Env : VSearch.SearchEnv :=
  ⟨"openai", .raised, .value (some [c6Row]), .value []⟩

/-- Concrete search outcomes where only the keyword stage finds a row:
vector raises, full-text returns `None`. -/
def c6EnvKw : VSearch.SearchEnv :=
  ⟨"openai", .raised, .value none, .value [c6Row]⟩

/-- Total reconstructed length of the pieces of a split: each piece is
re-extended with the two-character separator before accumulation
(`sentence + '. '` in `_chunk_text_robust`). -/
def totalLen (ss : List (List Char)) : Nat :=
  (ss.map (fun s => s.length + 2)).sum

/-- Adjacency of consecutive chunk spans: the next chunk starts at or
before the current chunk's end (no gap), and the overlap amount is at most
`ov`. -/
def SpanAdj (ov : Nat) (a b : QueueP.PyChunk) : Prop :=
  b.char_start ≤ a.char_end ∧ a.char_end - b.char_start ≤ ov

/-- `char_start` of the first chunk (0 when there is none). -/
def firstStart : List QueueP.PyChunk → Nat
  | [] => 0
  | c :: _ => c.char_start

/-- `char_end` of the last chunk (0 when there is none). -/
def lastEnd : List QueueP.PyChunk → Nat
  | [] => 0
  | [c] => c.char_end
  | _ :: c :: rest => lastEnd (c :: rest)

/-! Theorems. -/

/-- The hash provider emits exactly 1536 floats whenever each numpy draw
has its contractual 128 entries. -/
theorem generate_hash_embedding_length (sample : String → Nat → Vec)
    (text : String) (h : ∀ i, (sample text i).length = 128) :
    (REmb.generate_hash_embedding sample text).length = 1536 := by
  have e : List.range 12 = [0, 1, 2, 3, 4, 5, 6, 7, 8, 9, 10, 11] := by decide
  simp [REmb.generate_hash_embedding, e, h]

/-- C1: for every text not already cached, when neither the OpenAI provider
nor the local TF-IDF provider yields a truthy vector, the fallback chain
returns the deterministic hash vector — non-null and of exactly the
configured 1536 dimensions — tagged `hash_fallback`. -/
theorem embedding_chain_terminal_fallback
    (sample : String → Nat → Vec) (env : REmb.ChainEnv)
    (st : REmb.ChainState) (now : Nat) (text : String)
    (hcache : alookup text st.cache = none)
    (hoa : REmb.openaiBranchSucceeds env.openai = false)
    (hloc : REmb.localBranchSucceeds env.localResult = false)
    (hsample : ∀ i, (sample text i).length = 128) :
    (REmb.generate_embedding_with_fallback sample env st now text).embedding
        = some (REmb.generate_hash_embedding sample text) ∧
    (REmb.generate_embedding_with_fallback sample env st now text).provider
        = "hash_fallback" ∧
    (REmb.generate_hash_embedding sample text).length = 1536 := by
  have hlen := generate_hash_embedding_length sample text hsample
  rcases henv : REmb.tryOpenaiEmbedding env.openai with ⟨o, n⟩
  unfold REmb.openaiBranchSucceeds at hoa
  rw [henv] at hoa
  unfold REmb.localBranchSucceeds at hloc
  rcases hb : st.breaker.can_execute now with ⟨b, cb⟩
  unfold REmb.generate_embedding_with_fallback
  rw [hcache, hb, henv]
  rcases hl : env.localResult with (_ | w) | _ <;>
    rw [hl] at hloc <;>
    cases b <;>
    rcases o with m | (_ | v) <;>
    simp_all

/-- Witness for `embedding_chain_terminal_fallback` at a concrete run. -/
theorem embedding_chain_terminal_fallback_witness :
    (alookup "hello" ({} : REmb.ChainState).cache = none) ∧
    REmb.openaiBranchSucceeds c1Env.openai = false ∧
    REmb.localBranchSucceeds c1Env.localResult = false ∧
    (∀ i, (constSample "hello" i).length = 128) ∧
    ((REmb.generate_embedding_with_fallback constSample c1Env {} 0
        "hello").embedding
        = some (REmb.generate_hash_embedding constSample "hello") ∧
     (REmb.generate_embedding_with_fallback constSample c1Env {} 0
        "hello").provider = "hash_fallback" ∧
     (REmb.generate_hash_embedding constSample "hello").length = 1536) :=
  ⟨rfl, by decide, rfl, fun _ => List.length_replicate 128 _,
   embedding_chain_terminal_fallback constSample c1Env {} 0 "hello" rfl
     (by decide) rfl (fun _ => List.length_replicate 128 _)⟩

/-- C4 counterexample: after 5 consecutive failures at time 0 the default
breaker is OPEN and rejects at time 100; at time 301 the timeout has
elapsed and `can_execute` returns true — but a SECOND `can_execute` call,
with no intervening success or recorded half-open successes, returns true
again: the half-open breaker does not limit itself to a single probe,
refuting the "returns true exactly once" part of the claim. -/
theorem circuit_breaker_single_probe_refuted :
    (breakerAfterFailures 0 0 0 0 0).state = CBState.OPEN ∧
    ((breakerAfterFailures 0 0 0 0 0).can_execute 100).1 = false ∧
    ((breakerAfterFailures 0 0 0 0 0).can_execute 301).1 = true ∧
    (((breakerAfterFailures 0 0 0 0 0).can_execute 301).2.can_execute
      301).1 = true ∧
    ((breakerAfterFailures 0 0 0 0 0).can_execute 301).2.success_count = 0 := by
  decide

/-- C4 amended: for the default breaker (failure_threshold 5,
recovery_timeout 300, success_threshold 3, as constructed throughout the
repository), 5 consecutive `on_failure` calls open the breaker;
`can_execute` then returns false until `now - last_failure > 300` and true
afterwards, moving to HALF_OPEN — where EVERY `can_execute` call returns
true (calls remain permitted; there is no single-probe limit); 3
consecutive `on_success` calls close the breaker and reset the failure
count, and any `on_failure` while HALF_OPEN reopens it immediately. -/
theorem circuit_breaker_lifecycle (t1 t2 t3 t4 t5 now now2 : Nat) :
    (breakerAfterFailures t1 t2 t3 t4 t5).state = CBState.OPEN ∧
    (breakerAfterFailures t1 t2 t3 t4 t5).last_failure_time = some t5 ∧
    (now - t5 ≤ 300 →
      ((breakerAfterFailures t1 t2 t3 t4 t5).can_execute now).1 = false) ∧
    (300 < now - t5 →
      ((breakerAfterFailures t1 t2 t3 t4 t5).can_execute now).1 = true ∧
      ((breakerAfterFailures t1 t2 t3 t4 t5).can_execute now).2.state
          = CBState.HALF_OPEN ∧
      (((breakerAfterFailures t1 t2 t3 t4 t5).can_execute now).2.can_execute
        now2).1 = true ∧
      (((breakerAfterFailures t1 t2 t3 t4 t5).can_execute
        now).2.on_success.on_success.on_success).state = CBState.CLOSED ∧
      (((breakerAfterFailures t1 t2 t3 t4 t5).can_execute
        now).2.on_success.on_success.on_success).failure_count = 0 ∧
      (((breakerAfterFailures t1 t2 t3 t4 t5).can_execute now).2.on_failure
        now2).state = CBState.OPEN) := by
  have hcb5 : breakerAfterFailures t1 t2 t3 t4 t5 =
      { failure_count := 5, last_failure_time := some t5, state := CBState.OPEN } :=
    rfl
  refine ⟨by rw [hcb5], by rw [hcb5], ?_, ?_⟩
  · intro h
    have hnot : ¬ (300 : Nat) < now - t5 := by omega
    simp [hcb5, REmb.CircuitBreaker.can_execute, hnot]
  · intro h
    have hhalf : ((breakerAfterFailures t1 t2 t3 t4 t5).can_execute now).2 =
        { failure_count := 5, success_count := 0,
          last_failure_time := some t5, state := CBState.HALF_OPEN } := by
      simp [hcb5, REmb.CircuitBreaker.can_execute, h]
    refine ⟨?_, ?_, ?_, ?_, ?_, ?_⟩ <;>
      simp [hcb5, hhalf, REmb.CircuitBreaker.can_execute,
        REmb.CircuitBreaker.on_success, REmb.CircuitBreaker.on_failure, h]

/-- Witness for `circuit_breaker_lifecycle`: failures at time 0, a probe at
time 100 (rejected) and probes at times 301/302 (permitted). -/
theorem circuit_breaker_lifecycle_witness :
    ((100 : Nat) - 0 ≤ 300) ∧ ((300 : Nat) < 301 - 0) ∧
    (breakerAfterFailures 0 0 0 0 0).state = CBState.OPEN ∧
    ((breakerAfterFailures 0 0 0 0 0).can_execute 100).1 = false ∧
    ((breakerAfterFailures 0 0 0 0 0).can_execute 301).1 = true ∧
    (((breakerAfterFailures 0 0 0 0 0).can_execute 301).2.can_execute
      302).1 = true ∧
    (((breakerAfterFailures 0 0 0 0 0).can_execute
      301).2.on_success.on_success.on_success).state = CBState.CLOSED ∧
    (((breakerAfterFailures 0 0 0 0 0).can_execute 301).2.on_failure
      302).state = CBState.OPEN := by
  have h1 := circuit_breaker_lifecycle 0 0 0 0 0 100 302
  have h2 := circuit_breaker_lifecycle 0 0 0 0 0 301 302
  have e1 := h2.2.2.2 (by decide)
  exact ⟨by decide, by decide, h2.1, h1.2.2.1 (by decide), e1.1,
    e1.2.2.1, e1.2.2.2.1, e1.2.2.2.2.2⟩

/-- C2 exhibit: the status mapping of `_process_document_async` and the
retry enqueues it performs.  The `ready` and `partial` branches behave as
claimed (no retry / immediate retry), but the created-count-zero branch
ALSO enqueues the retry task immediately: `.delay(document_id,
countdown=300)` passes 300 into the task-function parameter (the `# 5
minute delay` comment notwithstanding, Celery `.delay` accepts no
scheduling options), so `etaDelay = none` rather than a five-minute
execution delay. -/
theorem finalize_document_behavior :
    QueueP.finalize_document 3 0 = ("ready", none) ∧
    QueueP.finalize_document 2 1 = ("partial", some ⟨60, none⟩) ∧
    QueueP.finalize_document 0 3 = ("indexing_pending_quota", some ⟨300, none⟩) ∧
    (QueueP.finalize_document 0 3).2 ≠ some ⟨300, some 300⟩ := by
  refine ⟨rfl, rfl, rfl, by decide⟩

/-- One cons step of the chunk loop where the chunk is stored WITHOUT an
embedding (breaker denial, falsy result, or exception). -/
theorem processFailStep (docId : String) (now : Nat) (c : QueueP.PyChunk)
    (ax : QueueP.ChunkAttempt) (rest : List (QueueP.PyChunk × QueueP.ChunkAttempt))
    (i : Nat) (cbx : QueueP.CircuitBreaker)
    (ih : ProcessSpec docId rest (i + 1)
      (QueueP.processChunksGo docId now rest (i + 1) cbx)) :
    ProcessSpec docId ((c, ax) :: rest) i
      ⟨⟨docId, i, c.content, c.char_start, c.char_end, none⟩ ::
          (QueueP.processChunksGo docId now rest (i + 1) cbx).rows,
        (QueueP.processChunksGo docId now rest (i + 1) cbx).chunks_created,
        (QueueP.processChunksGo docId now rest (i + 1) cbx).chunks_failed + 1,
        (QueueP.processChunksGo docId now rest (i + 1) cbx).breaker⟩ := by
  obtain ⟨ih1, ih2, ih3, ih4, ih5⟩ := ih
  refine ⟨by simp only [List.length_cons]; omega, ?_, ?_, ?_, ?_⟩
  · show _ :: (QueueP.processChunksGo docId now rest (i + 1) cbx).rows.map _
        = List.range' i (rest.length + 1)
    rw [ih2]
    rfl
  · exact List.Forall₂.cons ⟨rfl, rfl, rfl, rfl, Or.inl rfl⟩ ih3
  · simpa using ih4
  · simp only [List.filter_cons]
    simp
    omega

/-- One cons step of the chunk loop where the attempt produced a truthy
vector and the chunk is stored WITH it. -/
theorem processSuccessStep (docId : String) (now : Nat) (c : QueueP.PyChunk)
    (v : Vec) (rest : List (QueueP.PyChunk × QueueP.ChunkAttempt))
    (i : Nat) (cbx : QueueP.CircuitBreaker)
    (ih : ProcessSpec docId rest (i + 1)
      (QueueP.processChunksGo docId now rest (i + 1) cbx)) :
    ProcessSpec docId ((c, QueueP.ChunkAttempt.result (some v)) :: rest) i
      ⟨⟨docId, i, c.content, c.char_start, c.char_end, some v⟩ ::
          (QueueP.processChunksGo docId now rest (i + 1) cbx).rows,
        (QueueP.processChunksGo docId now rest (i + 1) cbx).chunks_created + 1,
        (QueueP.processChunksGo docId now rest (i + 1) cbx).chunks_failed,
        (QueueP.processChunksGo docId now rest (i + 1) cbx).breaker⟩ := by
  obtain ⟨ih1, ih2, ih3, ih4, ih5⟩ := ih
  refine ⟨by simp only [List.length_cons]; omega, ?_, ?_, ?_, ?_⟩
  · show _ :: (QueueP.processChunksGo docId now rest (i + 1) cbx).rows.map _
        = List.range' i (rest.length + 1)
    rw [ih2]
    rfl
  · exact List.Forall₂.cons ⟨rfl, rfl, rfl, rfl, Or.inr ⟨v, rfl, rfl⟩⟩ ih3
  · simp only [List.filter_cons]
    simp
    omega
  · simpa using ih5

/-- Invariants of the chunk-processing loop, by induction with the start
index and the breaker generalized. -/
theorem processChunksGo_spec (docId : String) (now : Nat) :
    ∀ (items : List (QueueP.PyChunk × QueueP.ChunkAttempt)) (i : Nat)
      (cb : QueueP.CircuitBreaker),
    ProcessSpec docId items i (QueueP.processChunksGo docId now items i cb)
  | [], i, cb => by
    refine ⟨rfl, rfl, List.Forall₂.nil, rfl, rfl⟩
  | (c, a) :: rest, i, cb => by
    rcases hp : cb.can_execute now with ⟨b, cb2⟩
    simp only [QueueP.processChunksGo, hp]
    cases b with
    | false =>
      exact processFailStep docId now c a rest i cb2
        (processChunksGo_spec docId now rest (i + 1) cb2)
    | true =>
      cases a with
      | result r =>
        cases r with
        | some v =>
          cases hv : v.isEmpty
          · simp only [hv, Bool.not_false, if_true]
            exact processSuccessStep docId now c v rest i cb2.on_success
              (processChunksGo_spec docId now rest (i + 1) cb2.on_success)
          · simp only [hv, Bool.not_true, Bool.false_eq_true, if_false]
            exact processFailStep docId now c _ rest i (cb2.on_failure now)
              (processChunksGo_spec docId now rest (i + 1) (cb2.on_failure now))
        | none =>
          exact processFailStep docId now c _ rest i (cb2.on_failure now)
            (processChunksGo_spec docId now rest (i + 1) (cb2.on_failure now))
      | raised =>
        exact processFailStep docId now c _ rest i (cb2.on_failure now)
          (processChunksGo_spec docId now rest (i + 1) (cb2.on_failure now))

/-- Clean-run direction of the loop: starting from a CLOSED queue breaker,
when every attempt yields a truthy vector, no chunk is counted failed and
every stored row carries an embedding. -/
theorem processChunksGo_allSuccess (docId : String) (now : Nat) :
    ∀ (items : List (QueueP.PyChunk × QueueP.ChunkAttempt)) (i : Nat)
      (cb : QueueP.CircuitBreaker),
    cb.state = CBState.CLOSED →
    (∀ x ∈ items, ∃ v, x.2 = QueueP.ChunkAttempt.result (some v) ∧
      v.isEmpty = false) →
    (QueueP.processChunksGo docId now items i cb).chunks_failed = 0 ∧
    ∀ r ∈ (QueueP.processChunksGo docId now items i cb).rows,
      r.embedding.isSome = true
  | [], i, cb => by
    intro _ _
    exact ⟨rfl, by intro r hr; cases hr⟩
  | (c, a) :: rest, i, cb => by
    intro hclosed hall
    have hcan : cb.can_execute now = (true, cb) := by
      simp [QueueP.CircuitBreaker.can_execute, hclosed]
    obtain ⟨v, ha, hv⟩ := hall (c, a) (by simp)
    simp only at ha
    subst ha
    simp only [QueueP.processChunksGo, hcan, Bool.not_true,
      Bool.false_eq_true, if_false]
    simp only [hv, Bool.not_false, if_true]
    have ih := processChunksGo_allSuccess docId now rest (i + 1) cb.on_success
      rfl (fun x hx => hall x (by simp [hx]))
    refine ⟨ih.1, ?_⟩
    intro r hr
    rcases List.mem_cons.mp hr with hr1 | hr2
    · rw [hr1]
      rfl
    · exact ih.2 r hr2

/-- C3: every chunk produced by chunking is stored exactly once with its
content and span; `chunks_created + chunks_failed` equals the number of
chunks; the created/failed counts are exactly the rows stored with/without
an embedding; a stored embedding is always the vector the chunk's own
attempt produced; and in a clean run (CLOSED breaker, all attempts yield a
truthy vector) nothing is counted failed and every row carries its
vector. -/
theorem chunk_processing_preserves_all_chunks (docId : String) (now : Nat)
    (items : List (QueueP.PyChunk × QueueP.ChunkAttempt))
    (cb : QueueP.CircuitBreaker) :
    (QueueP.processChunks docId now items cb).chunks_created +
        (QueueP.processChunks docId now items cb).chunks_failed
      = items.length ∧
    (QueueP.processChunks docId now items cb).rows.map (fun r => r.chunk_index)
        = List.range items.length ∧
    List.Forall₂ (ChunkRowMatches docId) items
      (QueueP.processChunks docId now items cb).rows ∧
    (QueueP.processChunks docId now items cb).chunks_created =
      ((QueueP.processChunks docId now items cb).rows.filter
        (fun r => r.embedding.isSome)).length ∧
    (QueueP.processChunks docId now items cb).chunks_failed =
      ((QueueP.processChunks docId now items cb).rows.filter
        (fun r => r.embedding.isNone)).length ∧
    (cb.state = CBState.CLOSED →
      (∀ x ∈ items, ∃ v, x.2 = QueueP.ChunkAttempt.result (some v) ∧
        v.isEmpty = false) →
      (QueueP.processChunks docId now items cb).chunks_failed = 0 ∧
      ∀ r ∈ (QueueP.processChunks docId now items cb).rows,
        r.embedding.isSome = true) := by
  obtain ⟨h1, h2, h3, h4, h5⟩ := processChunksGo_spec docId now items 0 cb
  exact ⟨h1, by rw [List.range_eq_range']; exact h2, h3, h4, h5,
    fun hc ha => processChunksGo_allSuccess docId now items 0 cb hc ha⟩

/-- Witness for `chunk_processing_preserves_all_chunks` on a concrete
two-chunk document with successful attempts. -/
theorem chunk_processing_preserves_all_chunks_witness :
    (({} : QueueP.CircuitBreaker).state = CBState.CLOSED) ∧
    (∀ x ∈ c3Items, ∃ v, x.2 = QueueP.ChunkAttempt.result (some v) ∧
      v.isEmpty = false) ∧
    ((QueueP.processChunks "doc-1" 0 c3Items {}).chunks_created +
        (QueueP.processChunks "doc-1" 0 c3Items {}).chunks_failed
      = c3Items.length ∧
     (QueueP.processChunks "doc-1" 0 c3Items {}).chunks_failed = 0) := by
  have hall : ∀ x ∈ c3Items, ∃ v,
      x.2 = QueueP.ChunkAttempt.result (some v) ∧ v.isEmpty = false := by
    intro x hx
    simp only [c3Items, List.mem_cons, List.not_mem_nil, or_false] at hx
    rcases hx with rfl | rfl
    · exact ⟨[(0.5 : Float)], rfl, rfl⟩
    · exact ⟨[(0.25 : Float)], rfl, rfl⟩
  have h := chunk_processing_preserves_all_chunks "doc-1" 0 c3Items {}
  exact ⟨rfl, hall, h.1, (h.2.2.2.2.2 rfl hall).1⟩

/-- C9: running the retry task on a document with no `embedding = null`
chunk is a complete no-op: the early return fires before any breaker or
chain call, so the document (status, message and chunks), the counts and
the breaker are all returned untouched. -/
theorem retry_noop_when_no_missing_embeddings (now : Nat)
    (atts : Nat → QueueP.ChunkAttempt) (cb : QueueP.CircuitBreaker)
    (doc : QueueP.DocState)
    (h : doc.chunks.filter (fun r => r.embedding.isNone) = []) :
    QueueP.retry_embeddings_async now atts cb doc =
      ⟨doc, 0, 0, cb⟩ := by
  simp [QueueP.retry_embeddings_async, h]

/-- Witness for `retry_noop_when_no_missing_embeddings` on a one-chunk
fully embedded document. -/
theorem retry_noop_when_no_missing_embeddings_witness :
    (c9Doc.chunks.filter (fun r => r.embedding.isNone) = []) ∧
    QueueP.retry_embeddings_async 7 (fun _ => QueueP.ChunkAttempt.raised) {}
      c9Doc = ⟨c9Doc, 0, 0, {}⟩ :=
  ⟨rfl, retry_noop_when_no_missing_embeddings 7 _ {} c9Doc rfl⟩

/-- One-step and recursive structure of the retry loop rows: every row is
either untouched or was a null row filled by one of the chain attempts. -/
theorem retryChunksGo_rows (now : Nat) (atts : Nat → QueueP.ChunkAttempt) :
    ∀ (rows : List QueueP.ChunkRow) (k : Nat) (cb : QueueP.CircuitBreaker)
      (stopped : Bool),
    List.Forall₂ (RetryRowMatches atts) rows
      (QueueP.retryChunksGo now atts rows k cb stopped).1
  | [], k, cb, stopped => List.Forall₂.nil
  | row :: rest, k, cb, stopped => by
    rcases hrow : row.embedding with _ | v
    · simp only [QueueP.retryChunksGo, hrow]
      cases stopped with
      | true =>
        exact List.Forall₂.cons (Or.inl rfl)
          (retryChunksGo_rows now atts rest k cb true)
      | false =>
        rcases hp : cb.can_execute now with ⟨b, cb2⟩
        simp only [hp]
        cases b with
        | false =>
          exact List.Forall₂.cons (Or.inl rfl)
            (retryChunksGo_rows now atts rest k cb2 true)
        | true =>
          rcases hatt : atts k with r | _
          · rcases r with _ | v
            · simp only [hatt]
              exact List.Forall₂.cons (Or.inl rfl)
                (retryChunksGo_rows now atts rest (k + 1) (cb2.on_failure now)
                  false)
            · simp only [hatt]
              cases hv : v.isEmpty with
              | false =>
                simp only [hv, Bool.not_false, if_true]
                exact List.Forall₂.cons (Or.inr ⟨hrow, v, k, hatt, rfl⟩)
                  (retryChunksGo_rows now atts rest (k + 1) cb2.on_success
                    false)
              | true =>
                simp only [hv, Bool.not_true, Bool.false_eq_true, if_false]
                exact List.Forall₂.cons (Or.inl rfl)
                  (retryChunksGo_rows now atts rest (k + 1)
                    (cb2.on_failure now) false)
          · simp only [hatt]
            exact List.Forall₂.cons (Or.inl rfl)
              (retryChunksGo_rows now atts rest (k + 1) (cb2.on_failure now)
                false)
    · simp only [QueueP.retryChunksGo, hrow]
      exact List.Forall₂.cons (Or.inl rfl)
        (retryChunksGo_rows now atts rest k cb stopped)

/-- C5 counterexample: on a `partial` document with one remaining null
chunk whose retry attempt fails, the retry pass completes normally with
`retry_success = 0, retry_failed = 1`; the document status is left at
`partial` (NOT recomputed to `indexing_pending_quota` as the main task's
accounting would give for zero created), and the task wrapper returns
`completed` — it does NOT reschedule itself although a chunk still lacks
its embedding and retries remain. -/
theorem retry_task_reschedule_refuted :
    (QueueP.retry_embeddings_async 0 (fun _ => QueueP.ChunkAttempt.result
      none) {} c5Doc).doc.status = "partial" ∧
    (QueueP.retry_embeddings_async 0 (fun _ => QueueP.ChunkAttempt.result
      none) {} c5Doc).retry_success = 0 ∧
    (QueueP.retry_embeddings_async 0 (fun _ => QueueP.ChunkAttempt.result
      none) {} c5Doc).retry_failed = 1 ∧
    QueueP.retry_failed_embeddings 60 0
      (Except.ok (QueueP.retry_embeddings_async 0
        (fun _ => QueueP.ChunkAttempt.result none) {} c5Doc)) =
      QueueP.RetryTaskResult.completed (QueueP.retry_embeddings_async 0
        (fun _ => QueueP.ChunkAttempt.result none) {} c5Doc) :=
  ⟨rfl, rfl, rfl, rfl⟩

/-- C5 amended: the retry pass touches exactly the chunks with
`embedding = null` (each is either filled with a vector produced by a chain
attempt or left null; embedded rows are never modified, and the loop stops
early if the breaker denies); the recomputed status is `ready` when some
chunks succeeded and none failed, `partial` when some succeeded and some
failed, and UNCHANGED when none succeeded; the task does NOT reschedule
itself on normal completion — only when the pass raises does the wrapper
re-enqueue with doubled countdown, provided the doubled value is within the
3600-second cap and fewer than 3 task retries occurred, and otherwise marks
the document `embedding_failed`. -/
theorem retry_task_behavior (now : Nat) (atts : Nat → QueueP.ChunkAttempt)
    (cb : QueueP.CircuitBreaker) (doc : QueueP.DocState) (cd pr : Nat)
    (e : String) :
    List.Forall₂ (RetryRowMatches atts) doc.chunks
      (QueueP.retry_embeddings_async now atts cb doc).doc.chunks ∧
    (0 < (QueueP.retry_embeddings_async now atts cb doc).retry_success ∧
        (QueueP.retry_embeddings_async now atts cb doc).retry_failed = 0 →
      (QueueP.retry_embeddings_async now atts cb doc).doc.status = "ready") ∧
    (0 < (QueueP.retry_embeddings_async now atts cb doc).retry_success ∧
        0 < (QueueP.retry_embeddings_async now atts cb doc).retry_failed →
      (QueueP.retry_embeddings_async now atts cb doc).doc.status
        = "partial") ∧
    ((QueueP.retry_embeddings_async now atts cb doc).retry_success = 0 →
      (QueueP.retry_embeddings_async now atts cb doc).doc.status
        = doc.status) ∧
    QueueP.retry_failed_embeddings cd pr
        (Except.ok (QueueP.retry_embeddings_async now atts cb doc)) =
      QueueP.RetryTaskResult.completed
        (QueueP.retry_embeddings_async now atts cb doc) ∧
    (2 * cd ≤ 3600 ∧ pr < 3 →
      QueueP.retry_failed_embeddings cd pr (Except.error e) =
        QueueP.RetryTaskResult.rescheduled (min (2 * cd) 3600)) ∧
    (¬(2 * cd ≤ 3600 ∧ pr < 3) →
      QueueP.retry_failed_embeddings cd pr (Except.error e) =
        QueueP.RetryTaskResult.markedFailed) := by
  refine ⟨?_, ?_, ?_, ?_, rfl, ?_, ?_⟩
  · unfold QueueP.retry_embeddings_async
    dsimp only
    split
    · exact List.forall₂_same.mpr (fun x _ => Or.inl rfl)
    · split
      · exact retryChunksGo_rows now atts doc.chunks 0 cb false
      · split
        · exact retryChunksGo_rows now atts doc.chunks 0 cb false
        · exact retryChunksGo_rows now atts doc.chunks 0 cb false
  · unfold QueueP.retry_embeddings_async
    dsimp only
    split
    · intro h
      dsimp only at h
      exact absurd h.1 (Nat.lt_irrefl 0)
    · split
      · intro _
        rfl
      · next h1 =>
        split
        · intro h
          dsimp only at h
          exact absurd h h1
        · next h2 =>
          intro h
          dsimp only at h
          exact absurd h.1 h2
  · unfold QueueP.retry_embeddings_async
    dsimp only
    split
    · intro h
      dsimp only at h
      exact absurd h.1 (Nat.lt_irrefl 0)
    · split
      · next h1 =>
        intro h
        dsimp only at h
        exact absurd h.2 (by rw [h1.2]; exact Nat.lt_irrefl 0)
      · split
        · intro _
          rfl
        · next h2 =>
          intro h
          dsimp only at h
          exact absurd h.1 h2
  · unfold QueueP.retry_embeddings_async
    dsimp only
    split
    · intro _
      rfl
    · split
      · next h1 =>
        intro hs
        dsimp only at hs
        exact absurd h1.1 (by rw [hs]; exact Nat.lt_irrefl 0)
      · split
        · next h2 =>
          intro hs
          dsimp only at hs
          exact absurd h2 (by rw [hs]; exact Nat.lt_irrefl 0)
        · intro _
          rfl
  · intro h
    show (if 2 * cd ≤ 3600 ∧ pr < 3 then _ else _) = _
    rw [if_pos h]
  · intro h
    show (if 2 * cd ≤ 3600 ∧ pr < 3 then _ else _) = _
    rw [if_neg h]

/-- Witness for `retry_task_behavior`: the null chunk of `c5Doc` is filled
successfully (status becomes `ready`), and a raising pass with countdown 60
and no prior retries is rescheduled at countdown 120. -/
theorem retry_task_behavior_witness :
    (0 < (QueueP.retry_embeddings_async 0 c5AttsOk {} c5Doc).retry_success ∧
      (QueueP.retry_embeddings_async 0 c5AttsOk {} c5Doc).retry_failed = 0) ∧
    ((2 : Nat) * 60 ≤ 3600 ∧ (0 : Nat) < 3) ∧
    ((QueueP.retry_embeddings_async 0 c5AttsOk {} c5Doc).doc.status
        = "ready" ∧
      QueueP.retry_failed_embeddings 60 0
          (Except.error "database unavailable") =
        QueueP.RetryTaskResult.rescheduled (min (2 * 60) 3600)) := by
  have h := retry_task_behavior 0 c5AttsOk {} c5Doc 60 0 "database unavailable"
  exact ⟨⟨by decide, by decide⟩, ⟨by decide, by decide⟩,
    h.2.1 ⟨by decide, by decide⟩, h.2.2.2.2.2.1 ⟨by decide, by decide⟩⟩

/-- C8: a recognized quota/rate-limit error on the first OpenAI attempt is
an instantaneous clean failure of that provider: exactly ONE attempt is
made (tenacity is stopped by the `return None`), the failure is recorded on
the chain's circuit breaker, no exception escapes, and the chain moves on
to a later provider and still produces an embedding. -/
theorem quota_error_clean_failure (sample : String → Nat → Vec)
    (env : REmb.ChainEnv) (st : REmb.ChainState) (now : Nat) (text : String)
    (m : String)
    (hcache : alookup text st.cache = none)
    (hkey : env.openai.hasApiKey = true)
    (hatt : env.openai.attempt 1 = REmb.CallOutcome.raise m)
    (hq : REmb.isQuotaError m = true)
    (hexec : (st.breaker.can_execute now).1 = true) :
    (REmb.generate_embedding_with_fallback sample env st now text).openaiCalls
        = 1 ∧
    (REmb.generate_embedding_with_fallback sample env st now
        text).state.breaker = (st.breaker.can_execute now).2.on_failure now ∧
    ((REmb.generate_embedding_with_fallback sample env st now text).provider
        = "local_tfidf" ∨
      (REmb.generate_embedding_with_fallback sample env st now text).provider
        = "hash_fallback") ∧
    (REmb.generate_embedding_with_fallback sample env st now
        text).embedding.isSome = true := by
  have htry : REmb.tryOpenaiEmbedding env.openai = (Except.ok none, 1) := by
    have hnk : (!env.openai.hasApiKey) = false := by rw [hkey]; rfl
    show REmb.tenacityQuotaGo (!env.openai.hasApiKey) env.openai.attempt
      (2 + 1) 0 = _
    rw [REmb.tenacityQuotaGo]
    simp [hnk, hatt, hq]
  rcases hb : st.breaker.can_execute now with ⟨b, cb2⟩
  rw [hb] at hexec
  simp only at hexec
  subst hexec
  unfold REmb.generate_embedding_with_fallback
  rw [hcache, hb, htry]
  rcases hl : env.localResult with (_ | w) | _
  · simp
  · cases hw : w.isEmpty <;> simp [hw]
  · simp

/-- Witness for `quota_error_clean_failure` on the concrete quota-failing
environment `c1Env`. -/
theorem quota_error_clean_failure_witness :
    (alookup "hello" ({} : REmb.ChainState).cache = none) ∧
    c1Env.openai.hasApiKey = true ∧
    c1Env.openai.attempt 1 =
      REmb.CallOutcome.raise "quota exceeded for this key" ∧
    REmb.isQuotaError "quota exceeded for this key" = true ∧
    ((({} : REmb.ChainState).breaker.can_execute 0).1 = true) ∧
    ((REmb.generate_embedding_with_fallback constSample c1Env {} 0
        "hello").openaiCalls = 1 ∧
     ((REmb.generate_embedding_with_fallback constSample c1Env {} 0
        "hello").provider = "local_tfidf" ∨
      (REmb.generate_embedding_with_fallback constSample c1Env {} 0
        "hello").provider = "hash_fallback")) := by
  have h := quota_error_clean_failure constSample c1Env {} 0 "hello"
    "quota exceeded for this key" rfl rfl rfl (by decide) rfl
  exact ⟨rfl, rfl, rfl, by decide, rfl, h.1, h.2.2.1⟩

/-- After any completion call, the response cache holds the returned
response under the key built from `(messages, max_tokens, temperature)`:
a cache hit returns the entry unchanged, and every provider path (OpenAI,
Anthropic, deterministic) stores its response before returning. -/
theorem completion_caches_response (env : MLLM.CompletionEnv)
    (st : MLLM.MLLMState) (now : Nat) (messages : List MLLM.Message)
    (mt : Nat) (temp : Rat) (docs : Option (List String)) :
    alookup (MLLM.create_cache_key messages mt temp)
        (MLLM.generate_completion_with_fallback env st now messages mt temp
          docs).state.response_cache =
      some (MLLM.generate_completion_with_fallback env st now messages mt
        temp docs).response := by
  unfold MLLM.generate_completion_with_fallback
  rcases hc : alookup (MLLM.create_cache_key messages mt temp)
      st.response_cache with _ | r
  · simp only [hc]
    split
    · simp [alookup]
    · split
      · simp [alookup]
      · simp [alookup]
  · simp only [hc]

/-- A completion call whose key is already cached returns the cached entry
tagged `"cache"` and leaves the service state untouched. -/
theorem completion_cache_hit (env : MLLM.CompletionEnv)
    (st : MLLM.MLLMState) (now : Nat) (messages : List MLLM.Message)
    (mt : Nat) (temp : Rat) (docs : Option (List String)) (r : String)
    (h : alookup (MLLM.create_cache_key messages mt temp)
      st.response_cache = some r) :
    MLLM.generate_completion_with_fallback env st now messages mt temp docs
      = ⟨r, "cache", st⟩ := by
  unfold MLLM.generate_completion_with_fallback
  simp only [h]

/-- C10: the completion cache key is computed only from `(messages,
max_tokens, temperature)` — `retrieved_docs` never reaches it — so a second
call with equal messages, token limit and temperature is served from the
cache: it returns the first call's response tagged `"cache"` and leaves the
state untouched, whatever `retrieved_docs` was passed on either call
(including when the first response came from the deterministic terminal
provider over a different document set). -/
theorem completion_cache_ignores_docs (env1 env2 : MLLM.CompletionEnv)
    (st : MLLM.MLLMState) (now1 now2 : Nat) (messages : List MLLM.Message)
    (max_tokens : Nat) (temperature : Rat)
    (docs1 docs2 : Option (List String)) :
    MLLM.generate_completion_with_fallback env2
        (MLLM.generate_completion_with_fallback env1 st now1 messages
          max_tokens temperature docs1).state now2 messages max_tokens
        temperature docs2 =
      ⟨(MLLM.generate_completion_with_fallback env1 st now1 messages
          max_tokens temperature docs1).response, "cache",
        (MLLM.generate_completion_with_fallback env1 st now1 messages
          max_tokens temperature docs1).state⟩ :=
  completion_cache_hit env2 _ now2 messages max_tokens temperature docs2 _
    (completion_caches_response env1 st now1 messages max_tokens temperature
      docs1)

/-- Inserting one element grows the sorted list by exactly one. -/
theorem insertBySimDesc_length (x : VSearch.SearchResult) :
    ∀ (l : List VSearch.SearchResult),
    (VSearch.insertBySimDesc x l).length = l.length + 1
  | [] => rfl
  | y :: ys => by
    unfold VSearch.insertBySimDesc
    split
    · simp [insertBySimDesc_length x ys]
    · simp

/-- The stable score sort preserves the number of results. -/
theorem sortBySimDesc_length (l : List VSearch.SearchResult) :
    (VSearch.sortBySimDesc l).length = l.length := by
  induction l with
  | nil => rfl
  | cons a l ih =>
    show (VSearch.insertBySimDesc a (VSearch.sortBySimDesc l)).length = _
    rw [insertBySimDesc_length, ih]
    simp

/-- Membership through insertion. -/
theorem mem_insertBySimDesc (x y : VSearch.SearchResult) :
    ∀ (l : List VSearch.SearchResult),
    y ∈ VSearch.insertBySimDesc x l ↔ y = x ∨ y ∈ l
  | [] => by simp [VSearch.insertBySimDesc]
  | a :: l => by
    unfold VSearch.insertBySimDesc
    split
    · simp [mem_insertBySimDesc x y l]
      tauto
    · simp

/-- The stable score sort has exactly the members of its input. -/
theorem mem_sortBySimDesc (y : VSearch.SearchResult)
    (l : List VSearch.SearchResult) :
    y ∈ VSearch.sortBySimDesc l ↔ y ∈ l := by
  induction l with
  | nil => simp [VSearch.sortBySimDesc]
  | cons a l ih =>
    show y ∈ VSearch.insertBySimDesc a (VSearch.sortBySimDesc l) ↔ _
    rw [mem_insertBySimDesc, ih]
    simp

/-- C6: on a cache miss the resolver tries vector, full-text, then keyword
search in order and returns the first non-empty result set with the
identifier of the winning strategy — in particular full-text wins with tag
`"fulltext_search"` and per-result `search_method = "fulltext"` whenever
the vector stage yields nothing, and the keyword stage wins with tag
`"keyword_search"` and per-result `search_method = "keyword"` whenever
both earlier stages yield nothing and it finds rows — and when all three
strategies error or come back empty, the caller receives an empty result
list tagged `"keyword_search"` or `"search_failed"`; the resolver is a
total function and never propagates an exception. -/
theorem search_fallback_behavior (env : VSearch.SearchEnv)
    (cache : VSearch.SearchCache) (query user_id : String) (lim : Nat)
    (threshold : Rat)
    (hmiss : alookup (query, user_id, lim, threshold) cache = none) :
    (∀ rows, env.vectorRows = VSearch.StratOutcome.value (some rows) →
      rows ≠ [] →
      (VSearch.search_documents env cache query user_id lim
          threshold).results =
          rows.map (VSearch.vectorResult env.vectorProvider) ∧
      (VSearch.search_documents env cache query user_id lim
          threshold).method = "vector_search") ∧
    (vectorYieldsNothing env →
      ∀ rows, env.fulltextRows = VSearch.StratOutcome.value (some rows) →
      rows ≠ [] →
      (VSearch.search_documents env cache query user_id lim
          threshold).results = rows.map VSearch.fulltextResult ∧
      (VSearch.search_documents env cache query user_id lim
          threshold).method = "fulltext_search" ∧
      ∀ r ∈ (VSearch.search_documents env cache query user_id lim
          threshold).results, r.search_method = "fulltext") ∧
    (vectorYieldsNothing env → fulltextYieldsNothing env →
      keywordYieldsNothing env →
      (VSearch.search_documents env cache query user_id lim
          threshold).results = [] ∧
      ((VSearch.search_documents env cache query user_id lim
          threshold).method = "keyword_search" ∨
       (VSearch.search_documents env cache query user_id lim
          threshold).method = "search_failed")) ∧
    (vectorYieldsNothing env → fulltextYieldsNothing env →
      ∀ rows, env.keywordRows = VSearch.StratOutcome.value rows →
      rows ≠ [] →
      (VSearch.search_documents env cache query user_id lim
          threshold).results =
          VSearch.sortBySimDesc (rows.map
            (VSearch.keywordResult (VSearch.pyLowerSplit query))) ∧
      (VSearch.search_documents env cache query user_id lim
          threshold).method = "keyword_search" ∧
      (VSearch.search_documents env cache query user_id lim
          threshold).results ≠ [] ∧
      ∀ r ∈ (VSearch.search_documents env cache query user_id lim
          threshold).results, r.search_method = "keyword") := by
  refine ⟨?_, ?_, ?_, ?_⟩
  · intro rows hv hne
    cases rows with
    | nil => exact absurd rfl hne
    | cons a as =>
      constructor <;>
        simp [VSearch.search_documents, hmiss, hv]
  · intro hvec rows hf hne
    cases rows with
    | nil => exact absurd rfl hne
    | cons a as =>
      have hres : (VSearch.search_documents env cache query user_id lim
          threshold).results = (a :: as).map VSearch.fulltextResult ∧
          (VSearch.search_documents env cache query user_id lim
            threshold).method = "fulltext_search" := by
        rcases hvec with hv | hv | hv <;>
          constructor <;>
            simp [VSearch.search_documents, hmiss, hv, hf]
      refine ⟨hres.1, hres.2, ?_⟩
      rw [hres.1]
      intro r hr
      rcases List.mem_map.mp hr with ⟨x, _, rfl⟩
      rfl
  · intro hvec hft hkw
    rcases hvec with hv | hv | hv <;> rcases hft with hf | hf | hf <;>
      rcases hkw with hk | hk <;>
        constructor <;>
          simp [VSearch.search_documents, hmiss, hv, hf, hk,
            VSearch.sortBySimDesc]
  · intro hvec hft rows hk hne
    have hres : (VSearch.search_documents env cache query user_id lim
        threshold).results = VSearch.sortBySimDesc (rows.map
          (VSearch.keywordResult (VSearch.pyLowerSplit query))) ∧
        (VSearch.search_documents env cache query user_id lim
          threshold).method = "keyword_search" := by
      rcases hvec with hv | hv | hv <;> rcases hft with hf | hf | hf <;>
        constructor <;>
          simp [VSearch.search_documents, hmiss, hv, hf, hk]
    refine ⟨hres.1, hres.2, ?_, ?_⟩
    · rw [hres.1]
      intro hcontra
      have hl := sortBySimDesc_length (rows.map
        (VSearch.keywordResult (VSearch.pyLowerSplit query)))
      rw [hcontra] at hl
      simp at hl
      exact hne (List.length_eq_zero.mp hl.symm)
    · rw [hres.1]
      intro r hr
      rw [mem_sortBySimDesc] at hr
      rcases List.mem_map.mp hr with ⟨x, _, rfl⟩
      rfl

/-- Witness for `search_fallback_behavior`: empty cache; with `c6Env` the
vector stage raises and full-text returns one row; with `c6EnvKw` both
earlier stages yield nothing and the keyword stage returns one row. -/
theorem search_fallback_behavior_witness :
    (alookup ("alpha", "user-1", 5, (7 : Rat) / 10)
      ([] : VSearch.SearchCache) = none) ∧
    vectorYieldsNothing c6Env ∧
    c6Env.fulltextRows = VSearch.StratOutcome.value (some [c6Row]) ∧
    ([c6Row] ≠ ([] : List VSearch.Row)) ∧
    ((VSearch.search_documents c6Env [] "alpha" "user-1" 5
        ((7 : Rat) / 10)).results = [c6Row].map VSearch.fulltextResult ∧
     (VSearch.search_documents c6Env [] "alpha" "user-1" 5
        ((7 : Rat) / 10)).method = "fulltext_search") ∧
    (vectorYieldsNothing c6EnvKw ∧ fulltextYieldsNothing c6EnvKw ∧
     c6EnvKw.keywordRows = VSearch.StratOutcome.value [c6Row]) ∧
    ((VSearch.search_documents c6EnvKw [] "alpha" "user-1" 5
        ((7 : Rat) / 10)).method = "keyword_search" ∧
     (VSearch.search_documents c6EnvKw [] "alpha" "user-1" 5
        ((7 : Rat) / 10)).results ≠ []) := by
  have h := (search_fallback_behavior c6Env [] "alpha" "user-1" 5
    ((7 : Rat) / 10) rfl).2.1 (Or.inl rfl) [c6Row] rfl (by simp)
  have h2 := (search_fallback_behavior c6EnvKw [] "alpha" "user-1" 5
    ((7 : Rat) / 10) rfl).2.2.2 (Or.inl rfl) (Or.inr (Or.inl rfl)) [c6Row]
    rfl (by simp)
  exact ⟨rfl, Or.inl rfl, rfl, by simp, ⟨h.1, h.2.1⟩,
    ⟨Or.inl rfl, Or.inr (Or.inl rfl), rfl⟩, h2.2.1, h2.2.2.1⟩

/-- `totalLen` over a cons. -/
theorem totalLen_cons (s : List Char) (ss : List (List Char)) :
    totalLen (s :: ss) = s.length + 2 + totalLen ss := by
  simp [totalLen]

/-- The split never returns zero pieces, and the reconstructed length of
its pieces is the input length plus the accumulator plus two (splitting
consumes two characters per separator and the chunking loop re-extends
every piece, including the last, by two).  Strong induction on the input
length, since the separator case consumes two characters. -/
theorem splitDotSpaceGo_props (n : Nat) :
    ∀ (rest : List Char), rest.length ≤ n → ∀ (acc : List Char),
    QueueP.splitDotSpaceGo acc rest ≠ [] ∧
    totalLen (QueueP.splitDotSpaceGo acc rest)
      = acc.length + rest.length + 2 := by
  induction n with
  | zero =>
    intro rest hlen acc
    cases rest with
    | nil =>
      refine ⟨by simp [QueueP.splitDotSpaceGo], ?_⟩
      simp [QueueP.splitDotSpaceGo, totalLen_cons, totalLen]
    | cons c r => simp at hlen
  | succ n ih =>
    intro rest hlen acc
    unfold QueueP.splitDotSpaceGo
    split
    · refine ⟨by simp, ?_⟩
      simp [totalLen_cons, totalLen]
    · next rest2 =>
      have ih2 := ih rest2 (by simp at hlen; omega) []
      refine ⟨by simp, ?_⟩
      rw [totalLen_cons, ih2.2]
      simp
      omega
    · next c rest2 h1 =>
      have ih2 := ih rest2 (by simp at hlen; omega) (c :: acc)
      refine ⟨ih2.1, ?_⟩
      rw [ih2.2]
      simp
      omega

/-- `text.split(". ")` is non-empty and its re-extended pieces total
`len(text) + 2`. -/
theorem splitDotSpace_props (text : List Char) :
    QueueP.splitDotSpace text ≠ [] ∧
    totalLen (QueueP.splitDotSpace text) = text.length + 2 := by
  have h := splitDotSpaceGo_props text.length text le_rfl []
  exact ⟨h.1, by unfold QueueP.splitDotSpace; rw [h.2]; simp⟩

/-- `lastEnd` ignores the head of a list with at least two elements. -/
theorem lastEnd_cons_of_ne_nil (a : QueueP.PyChunk)
    (l : List QueueP.PyChunk) (h : l ≠ []) :
    lastEnd (a :: l) = lastEnd l := by
  cases l with
  | nil => exact absurd rfl h
  | cons b m => rfl

/-- Span structure of the chunk loop: a non-empty chunk list whose first
span starts at `start`, whose last span ends exactly at
`start + len(cur) + totalLen ss`, and whose consecutive spans are gapless
with overlap at most `ov` (requires a positive overlap: `cur[-0:]` would be
the whole string). -/
theorem chunkGo_spans (csz ov : Nat) (hov : 0 < ov) :
    ∀ (ss : List (List Char)) (cur : List Char) (start : Nat),
    (cur ≠ [] ∨ ss ≠ []) →
    QueueP.chunkGo csz ov ss cur start ≠ [] ∧
    firstStart (QueueP.chunkGo csz ov ss cur start) = start ∧
    lastEnd (QueueP.chunkGo csz ov ss cur start)
      = start + cur.length + totalLen ss ∧
    List.Chain' (SpanAdj ov) (QueueP.chunkGo csz ov ss cur start) := by
  intro ss
  induction ss with
  | nil =>
    intro cur start h
    have hne : cur.isEmpty = false := by
      rcases h with h | h
      · simpa [List.isEmpty_iff] using h
      · exact absurd rfl h
    unfold QueueP.chunkGo
    rw [if_neg (by simp [hne])]
    refine ⟨by simp, rfl, ?_, List.chain'_singleton _⟩
    simp [lastEnd, totalLen]
  | cons s rest ih =>
    intro cur start h
    unfold QueueP.chunkGo
    dsimp only
    by_cases hfit : (cur ++ (s ++ [ '.', ' ' ])).length ≤ csz
    · rw [if_pos hfit]
      have hrec := ih (cur ++ (s ++ [ '.', ' ' ])) start (Or.inl (by simp))
      refine ⟨hrec.1, hrec.2.1, ?_, hrec.2.2.2⟩
      rw [hrec.2.2.1, totalLen_cons]
      simp
      omega
    · rw [if_neg hfit]
      by_cases hemp : cur.isEmpty
      · rw [if_neg (by simp [hemp])]
        have hcur : cur = [] := by simpa [List.isEmpty_iff] using hemp
        subst hcur
        have hrec := ih (s ++ [ '.', ' ' ]) start (Or.inl (by simp))
        refine ⟨hrec.1, hrec.2.1, ?_, hrec.2.2.2⟩
        rw [hrec.2.2.1, totalLen_cons]
        simp
        omega
      · rw [if_pos (by simp [Bool.not_eq_true] at hemp ⊢; exact hemp)]
        have hL : (if ov < cur.length then QueueP.pyTail cur ov
            else cur).length ≤ cur.length ∧
            (if ov < cur.length then QueueP.pyTail cur ov
            else cur).length ≤ ov := by
          by_cases hlt : ov < cur.length
          · rw [if_pos hlt]
            unfold QueueP.pyTail
            rw [if_neg (by omega)]
            rw [List.length_drop]
            omega
          · rw [if_neg hlt]
            omega
        have hrec := ih ((if ov < cur.length then QueueP.pyTail cur ov
            else cur) ++ (s ++ [ '.', ' ' ]))
          (start + cur.length - (if ov < cur.length then QueueP.pyTail cur ov
            else cur).length) (Or.inl (by simp))
        refine ⟨by simp, rfl, ?_, ?_⟩
        · rw [lastEnd_cons_of_ne_nil _ _ hrec.1, hrec.2.2.1, totalLen_cons]
          simp
          omega
        · rcases hrl : QueueP.chunkGo csz ov rest
              ((if ov < cur.length then QueueP.pyTail cur ov else cur) ++
                (s ++ [ '.', ' ' ]))
              (start + cur.length -
                (if ov < cur.length then QueueP.pyTail cur ov
                  else cur).length) with _ | ⟨r0, rt⟩
          · exact absurd hrl hrec.1
          · have hfs : r0.char_start = start + cur.length -
                (if ov < cur.length then QueueP.pyTail cur ov
                  else cur).length := by
              have := hrec.2.1
              rw [hrl] at this
              exact this
            refine List.chain'_cons.mpr ⟨?_, ?_⟩
            · constructor
              · show r0.char_start ≤ start + cur.length
                omega
              · show start + cur.length - r0.char_start ≤ ov
                omega
            · have := hrec.2.2.2
              rw [hrl] at this
              exact this

/-- A gapless span chain covers every position between the first span's
start and the last span's end. -/
theorem spans_cover (ov : Nat) :
    ∀ (cs : List QueueP.PyChunk), List.Chain' (SpanAdj ov) cs →
    ∀ j, firstStart cs ≤ j → j < lastEnd cs →
    ∃ c ∈ cs, c.char_start ≤ j ∧ j < c.char_end
  | [] => by
    intro _ j h1 h2
    simp [lastEnd] at h2
  | [c] => by
    intro _ j h1 h2
    exact ⟨c, by simp, h1, h2⟩
  | a :: b :: rest => by
    intro hch j h1 h2
    by_cases hj : j < a.char_end
    · exact ⟨a, by simp, h1, hj⟩
    · have hch2 := List.chain'_cons.mp hch
      have hba : b.char_start ≤ a.char_end := hch2.1.1
      have h1a : a.char_start ≤ j := h1
      have := spans_cover ov (b :: rest) hch2.2 j
        (by show b.char_start ≤ j; omega)
        (by
          have h2a : j < lastEnd (b :: rest) := h2
          exact h2a)
      obtain ⟨c, hc, hcs⟩ := this
      exact ⟨c, by simp [hc], hcs⟩

/-- C7 counterexample: on the two-character text `"ab"` (no sentence
separator), the single chunk produced has span `[0, 4)` although the text
has length 2: the loop re-appends `'. '` to the final sentence, so the last
span's `char_end` exceeds the text — spans do NOT all lie within the
extracted text. -/
theorem chunk_span_exceeds_text_refuted :
    ((QueueP.chunk_text_robust 1000 200 "ab".toList).map
      (fun c => (c.char_start, c.char_end)) = [(0, 4)]) ∧
    "ab".toList.length = 2 := by
  constructor
  · rfl
  · rfl

/-- C7 amended: for any chunk size and a positive configured overlap, the
spans `[char_start, char_end)` of `_chunk_text_robust` in index order are
contiguous: the list is non-empty, the first span starts at 0, consecutive
spans are gapless and overlap by at most the configured overlap, and the
last span ends at exactly `len(text) + 2` — two characters PAST the end of
the text, because the split re-appends the `'. '` separator to the final
sentence.  Consequently every character position of the text is covered by
some span, but the spans do not all lie within the text. -/
theorem chunk_spans_contiguous (csz ov : Nat) (hov : 0 < ov)
    (text : List Char) :
    QueueP.chunk_text_robust csz ov text ≠ [] ∧
    firstStart (QueueP.chunk_text_robust csz ov text) = 0 ∧
    lastEnd (QueueP.chunk_text_robust csz ov text) = text.length + 2 ∧
    List.Chain' (SpanAdj ov) (QueueP.chunk_text_robust csz ov text) ∧
    ∀ j, j < text.length →
      ∃ c ∈ QueueP.chunk_text_robust csz ov text,
        c.char_start ≤ j ∧ j < c.char_end := by
  obtain ⟨hne, htot⟩ := splitDotSpace_props text
  have h := chunkGo_spans csz ov hov (QueueP.splitDotSpace text) [] 0
    (Or.inr hne)
  have hlast : lastEnd (QueueP.chunk_text_robust csz ov text)
      = text.length + 2 := by
    show lastEnd (QueueP.chunkGo csz ov (QueueP.splitDotSpace text) [] 0)
      = text.length + 2
    rw [h.2.2.1, htot]
    simp
  refine ⟨h.1, h.2.1, hlast, h.2.2.2, ?_⟩
  intro j hj
  exact spans_cover ov _ h.2.2.2 j
    (by rw [h.2.1]; omega)
    (by rw [h.2.2.1, htot]; omega)

/-- Witness for `chunk_spans_contiguous` on the defaults
(`chunk_size = 1000`, `chunk_overlap = 200`) and the text `"ab"`. -/
theorem chunk_spans_contiguous_witness :
    (0 < 200) ∧
    (QueueP.chunk_text_robust 1000 200 "ab".toList ≠ [] ∧
     firstStart (QueueP.chunk_text_robust 1000 200 "ab".toList) = 0 ∧
     lastEnd (QueueP.chunk_text_robust 1000 200 "ab".toList) =
       "ab".toList.length + 2) := by
  have h := chunk_spans_contiguous 1000 200 (by decide) "ab".toList
  exact ⟨by decide, h.1, h.2.1, h.2.2.1⟩

end DocINX
